import Mathlib

/-!
Shallow embedding of the potency idempotency middleware (Go package
`potency`: the dispatcher `Potency.ServeHTTP` / `Potency.serveHTTP`, the
result cache (`read` / `write` / `removeExpired`), the in-flight key set
(`lockKey` / `unlockKey`), the response writer intercept
(`responseWriterIntercept`) and the request body intercept
(`bodyIntercept`)).

Modelling choices, stated once:
- byte strings are lists of naturals; Go `time.Time` is an integer
  timestamp; `time.Duration` is an integer;
- `http.Header` is an association list from canonical header name to the
  list of values, with at most one binding per key (Go map semantics);
- the singly linked `newer` chain rooted at `cacheOldest` is materialised
  as the list of nodes reachable from `cacheOldest`, oldest first; the
  `cacheNewest` pointer is always the last element of that list (it is
  only ever assigned the freshly appended node), so it needs no separate
  field;
- the SHA-256 function is an explicit parameter `sha : Bytes → Bytes` of
  every definition that hashes; the source only forwards bytes into the
  accumulator and compares digests, so every theorem holds uniformly in it;
- the wrapped handler is an explicit parameter: given the request it
  performs some number of `Read` calls on the request body and a sequence
  of operations on the response writer;
- `serveHTTP` runs one request to completion atomically (the Go code runs
  one request per goroutine; lock-protected sections are modelled as
  atomic state updates).
-/

namespace Potency

/-- Byte strings, modelled as lists of naturals. -/
abbrev Bytes := List Nat

/-- The double-quote character tested by the Idempotency-Key syntax check. -/
def quoteChar : Char := Char.ofNat 34

/-- Go `http.Header`: map from header name to list of values. -/
abbrev Header := List (String × List String)

/-- Go map delete: remove every binding for key `k`. -/
def eraseKey {α : Type} (k : String) (l : List (String × α)) : List (String × α) :=
  l.filter fun kv => decide (kv.1 ≠ k)

/-- Go map lookup. -/
def assocGet {α : Type} (k : String) (l : List (String × α)) : Option α :=
  (l.find? fun kv => decide (kv.1 = k)).map Prod.snd

/-- Go map assignment `m[k] = v`. -/
def assocSet {α : Type} (k : String) (v : α) (l : List (String × α)) : List (String × α) :=
  (k, v) :: eraseKey k l

/-- `http.Header.Get`: first value for the key, `""` when absent or empty. -/
def headerGet (k : String) (h : Header) : String :=
  match assocGet k h with
  | some (v :: _) => v
  | _ => ""

/-- `http.Header.Set`: replace the value list with the single value `v`. -/
def headerSet (k v : String) (h : Header) : Header :=
  assocSet k [v] h

/-- `http.Header.Add`: append `v` to the value list for `k`. -/
def headerAdd (k v : String) (h : Header) : Header :=
  match assocGet k h with
  | some vs => assocSet k (vs ++ [v]) h
  | none => assocSet k [v] h

/-- All values stored for a header key (empty list when absent). -/
def headerValues (k : String) (h : Header) : List String :=
  (assocGet k h).getD []

/-- `savedResult` (potency.go): one cached replayable outcome.  The `newer`
pointer is represented by the node's position in the chain list. -/
structure SavedResult where
  key : String
  method : String
  url : String
  requestHeader : Header
  sha256 : Bytes
  statusCode : Int
  responseHeader : Header
  responseBody : Bytes
  added : Int
  deriving DecidableEq, Repr

/-- The mutable state of a `Potency` value: lifetime, the cache map, the
`newer`-chain reachable from `cacheOldest` (oldest first; its head is what
`cacheOldest` points at, its last element is what `cacheNewest` points at),
and the `inProgress` key set. -/
structure PotencyState where
  lifetime : Int
  cache : List (String × SavedResult)
  chain : List SavedResult
  inProgress : List String
  deriving DecidableEq, Repr

/-- `criticalHeaders` (potency.go). -/
def criticalHeaders : List String :=
  ["Accept", "Authorization"]

/-- The tail of the `removeExpired` loop once at least one node has been
deleted: `last` is the node most recently assigned to `p.cacheOldest`
(i.e. the most recently deleted node), the first argument is the rest of
the chain the iterator still has to visit. -/
def removeExpiredAux (cutoff : Int) (last : SavedResult) :
    List SavedResult → List (String × SavedResult) →
    List SavedResult × List (String × SavedResult)
  | [], cache => ([last], cache)
  | sr :: rest, cache =>
    if sr.added < cutoff then removeExpiredAux cutoff sr rest (eraseKey sr.key cache)
    else (last :: sr :: rest, cache)

/-- `removeExpired` (potency.go): walk the chain from `cacheOldest`; while
the node's `added` is before the cutoff, delete its key from the cache map
and assign the node itself (not its successor) to `cacheOldest`.  Returns
the new chain-from-`cacheOldest` and the new cache map. -/
def removeExpired (cutoff : Int) :
    List SavedResult → List (String × SavedResult) →
    List SavedResult × List (String × SavedResult)
  | [], cache => ([], cache)
  | sr :: rest, cache =>
    if sr.added < cutoff then removeExpiredAux cutoff sr rest (eraseKey sr.key cache)
    else (sr :: rest, cache)

/-- `write` (potency.go): stamp `added = now`, insert into the cache map,
append to the chain (link from `cacheNewest`, initialise `cacheOldest` if
nil), then run the expiry sweep with cutoff `now - lifetime`. -/
def write (now : Int) (sr0 : SavedResult) (st : PotencyState) : PotencyState :=
  let sr : SavedResult := { sr0 with added := now }
  let cache := assocSet sr.key sr st.cache
  let chain := st.chain ++ [sr]
  let swept := removeExpired (now - st.lifetime) chain cache
  { st with cache := swept.2, chain := swept.1 }

/-- An observable event forwarded to the real `http.ResponseWriter`:
a `WriteHeader` call or a body `Write` call. -/
inductive WEvent where
  | status (code : Int)
  | data (bs : Bytes)
  deriving DecidableEq, Repr

/-- The real (downstream) response writer: its header map, and the
sequence of `WriteHeader` / `Write` calls it has received. -/
structure ResponseState where
  header : Header
  events : List WEvent
  deriving DecidableEq, Repr

/-- The intercept-local fields of `responseWriterIntercept`: the recorded
status code and the body copy buffer. -/
structure RWIState where
  statusCode : Int
  buf : Bytes
  deriving DecidableEq, Repr

/-- `newResponseWriterIntercept`: status defaults to `http.StatusOK`. -/
def newRWI : RWIState :=
  { statusCode := 200, buf := [] }

/-- One operation a handler may perform on its response writer. -/
inductive RWOp where
  | setHeader (k v : String)
  | addHeader (k v : String)
  | writeHeader (code : Int)
  | writeData (bs : Bytes)
  deriving DecidableEq, Repr

/-- `responseWriterIntercept` semantics of one operation.  `Header()`
returns the destination's header map, so header operations mutate the
destination directly; `Write` appends to the buffer and forwards;
`WriteHeader` overwrites the recorded status and forwards. -/
def applyOp : RWIState × ResponseState → RWOp → RWIState × ResponseState
  | (rwi, w), .setHeader k v => (rwi, { w with header := headerSet k v w.header })
  | (rwi, w), .addHeader k v => (rwi, { w with header := headerAdd k v w.header })
  | (rwi, w), .writeHeader c =>
      ({ rwi with statusCode := c }, { w with events := w.events ++ [.status c] })
  | (rwi, w), .writeData bs =>
      ({ rwi with buf := rwi.buf ++ bs }, { w with events := w.events ++ [.data bs] })

/-- Run a handler's response operations through a fresh
`responseWriterIntercept` wrapping `w`. -/
def runOps (ops : List RWOp) (w : ResponseState) : RWIState × ResponseState :=
  ops.foldl applyOp (newRWI, w)

/-- Semantics of one response operation applied directly to the real
writer (the no-idempotency-key path, where no intercept is installed). -/
def applyOpPlain (w : ResponseState) : RWOp → ResponseState
  | .setHeader k v => { w with header := headerSet k v w.header }
  | .addHeader k v => { w with header := headerAdd k v w.header }
  | .writeHeader c => { w with events := w.events ++ [.status c] }
  | .writeData bs => { w with events := w.events ++ [.data bs] }

/-- Run a handler's response operations directly on the real writer. -/
def runOpsPlain (ops : List RWOp) (w : ResponseState) : ResponseState :=
  ops.foldl applyOpPlain w

/-- `bodyIntercept` state: the read results the underlying body will still
deliver (data bytes paired with an error flag), and the bytes fed so far
into the SHA-256 accumulator. -/
structure BIState where
  pending : List (Bytes × Bool)
  acc : Bytes
  deriving DecidableEq, Repr

/-- `bodyIntercept.Read`: read from the source, feed exactly the returned
bytes into the accumulator, pass the byte count and error through.  An
exhausted source returns zero bytes with the EOF error flag. -/
def biRead (st : BIState) : (Bytes × Bool) × BIState :=
  match st.pending with
  | [] => (([], true), st)
  | res :: rest => (res, { pending := rest, acc := st.acc ++ res.1 })

/-- Perform `n` successive `bodyIntercept.Read` calls, collecting the
returned results. -/
def biReadN : Nat → BIState → List (Bytes × Bool) × BIState
  | 0, st => ([], st)
  | n + 1, st =>
    let r := biRead st
    let rest := biReadN n r.2
    (r.1 :: rest.1, rest.2)

/-- An inbound request: method, full URL string, headers, the successive
chunks the body yields on reads, and whether a read error (rather than
EOF) follows the chunks. -/
structure Request where
  method : String
  url : String
  header : Header
  body : List Bytes
  bodyErr : Bool
  deriving DecidableEq, Repr

/-- The wrapped handler's observable behaviour on a request: how many
`Read` calls it performs on the request body, and the operations it
performs on the response writer. -/
structure HandlerResult where
  numReads : Nat
  ops : List RWOp
  deriving DecidableEq, Repr

/-- The error kinds `serveHTTP` can return (potency.go). -/
inductive DispatchError where
  | invalidKey
  | methodMismatch
  | urlMismatch
  | headerMismatch (h : String)
  | bodyReadError
  | bodyMismatch
  | conflict
  deriving DecidableEq, Repr

/-- The outcome of one dispatcher call: the returned error (if any), the
final `Potency` state, the final real response writer, and how many times
the wrapped handler ran. -/
structure DispatchResult where
  error : Option DispatchError
  st : PotencyState
  w : ResponseState
  handlerCalls : Nat
  deriving DecidableEq, Repr

/-- The critical-header comparison loop of the hit path: the first header
in the list whose saved value differs from the request's value. -/
def findHeaderMismatch (savedH reqH : Header) : List String → Option String
  | [] => none
  | h :: rest =>
    if headerGet h savedH = headerGet h reqH then findHeaderMismatch savedH reqH rest
    else some h

/-- `key := val[1 : len(val)-1]`: strip the first and last character. -/
def keyOf (val : List Char) : String :=
  String.mk ((val.drop 1).dropLast)

/-- The hit-path replay of stored response headers:
`for key, vals := range saved.responseHeader; w.Header().Set(key, vals[0])`.
(`vals` is never empty for a header map built by Set/Add; `headD` covers
the pattern total-function requirement.) -/
def replaySavedHeader (respH : Header) (w : ResponseState) : ResponseState :=
  respH.foldl (fun acc kv => { acc with header := headerSet kv.1 (kv.2.headD "") acc.header }) w

/-- `Potency.serveHTTP` (potency.go, lines 98-181): the dispatcher run on a
request whose Idempotency-Key header value is `val` (non-empty by the
caller's guard). -/
def serveHTTPval (sha : Bytes → Bytes) (handler : Request → HandlerResult)
    (now : Int) (st : PotencyState) (w : ResponseState) (r : Request)
    (val : List Char) : DispatchResult :=
  if val.length < 2 ∨ ¬ val.head? = some quoteChar ∨ ¬ val.getLast? = some quoteChar then
    { error := some .invalidKey, st := st, w := w, handlerCalls := 0 }
  else
    let key := keyOf val
    match assocGet key st.cache with
    | some saved =>
      if ¬ r.method = saved.method then
        { error := some .methodMismatch, st := st, w := w, handlerCalls := 0 }
      else if ¬ r.url = saved.url then
        { error := some .urlMismatch, st := st, w := w, handlerCalls := 0 }
      else
        match findHeaderMismatch saved.requestHeader r.header criticalHeaders with
        | some h =>
          { error := some (.headerMismatch h), st := st, w := w, handlerCalls := 0 }
        | none =>
          if r.bodyErr then
            { error := some .bodyReadError, st := st, w := w, handlerCalls := 0 }
          else if ¬ sha r.body.flatten = saved.sha256 then
            { error := some .bodyMismatch, st := st, w := w, handlerCalls := 0 }
          else
            let w1 := replaySavedHeader saved.responseHeader w
            let w2 :=
              { w1 with events := w1.events ++ [.status saved.statusCode, .data saved.responseBody] }
            { error := none, st := st, w := w2, handlerCalls := 0 }
    | none =>
      if key ∈ st.inProgress then
        { error := some .conflict, st := st, w := w, handlerCalls := 0 }
      else
        let st1 : PotencyState := { st with inProgress := key :: st.inProgress }
        let requestHeader :=
          criticalHeaders.foldl (fun acc h => headerSet h (headerGet h r.header) acc) []
        let hres := handler r
        let consumed := (r.body.take hres.numReads).flatten
        let run := runOps hres.ops w
        let save : SavedResult :=
          { key := key, method := r.method, url := r.url,
            requestHeader := requestHeader, sha256 := sha consumed,
            statusCode := run.1.statusCode, responseHeader := run.2.header,
            responseBody := run.1.buf, added := 0 }
        let st2 := write now save st1
        let st3 : PotencyState :=
          { st2 with inProgress := st2.inProgress.filter fun x => decide (x ≠ key) }
        { error := none, st := st3, w := run.2, handlerCalls := 1 }

/-- `Potency.ServeHTTP` (potency.go, lines 71-82): read the
Idempotency-Key header; an empty value forwards straight to the wrapped
handler; otherwise run the keyed dispatcher. -/
def goServeHTTP (sha : Bytes → Bytes) (handler : Request → HandlerResult)
    (now : Int) (st : PotencyState) (w : ResponseState) (r : Request) : DispatchResult :=
  let val := headerGet "Idempotency-Key" r.header
  if val = "" then
    { error := none, st := st, w := runOpsPlain (handler r).ops w, handlerCalls := 1 }
  else
    serveHTTPval sha handler now st w r val.toList

/-- The status-code payload of a response operation, when it is a
`WriteHeader` call. -/
def statusSetBy : RWOp → Option Int
  | .writeHeader c => some c
  | _ => none

/-- The event a response operation forwards to the destination writer. -/
def eventOf : RWOp → Option WEvent
  | .writeHeader c => some (.status c)
  | .writeData bs => some (.data bs)
  | _ => none

/-! Concrete sample inputs used by the witness theorems. -/

/-- Sample hash function (identity) for witnesses. -/
def sha0 : Bytes → Bytes := fun bs => bs

/-- Sample wrapped handler for witnesses: reads nothing, writes nothing. -/
def handler0 : Request → HandlerResult := fun _ => { numReads := 0, ops := [] }

/-- Sample empty response writer for witnesses. -/
def w0 : ResponseState := { header := [], events := [] }

/-- Sample request for witnesses. -/
def r0 : Request := { method := "GET", url := "/u", header := [], body := [], bodyErr := false }

/-- Sample request with a different method, for the mismatch witness. -/
def rP : Request := { method := "POST", url := "/u", header := [], body := [], bodyErr := false }

/-- Sample request carrying an explicitly empty Idempotency-Key header. -/
def rE : Request :=
  { method := "GET", url := "/u", header := [("Idempotency-Key", [""])], body := [],
    bodyErr := false }

/-- Sample key header value: a quoted single character key `k`. -/
def val0 : List Char := [quoteChar, Char.ofNat 107, quoteChar]

/-- Sample stored result under key `k` for witnesses. -/
def savedW : SavedResult :=
  { key := "k", method := "GET", url := "/u", requestHeader := [], sha256 := [],
    statusCode := 200, responseHeader := [("X", ["v"])], responseBody := [7], added := 0 }

/-- Sample state whose cache holds `savedW` under key `k`. -/
def stHit : PotencyState :=
  { lifetime := 10, cache := [("k", savedW)], chain := [savedW], inProgress := [] }

/-- Sample empty state, for miss-path witnesses. -/
def stMiss : PotencyState :=
  { lifetime := 10, cache := [], chain := [], inProgress := [] }

/-- Sample stored result under key `a`, inserted at time 0. -/
def srA0 : SavedResult :=
  { key := "a", method := "GET", url := "/u", requestHeader := [], sha256 := [],
    statusCode := 200, responseHeader := [], responseBody := [], added := 0 }

/-- Sample stored result under key `b`. -/
def srB0 : SavedResult :=
  { srA0 with key := "b" }

/-- A reachable state with a stale oldest-chain node: after inserting key
`a` at time 0 and key `b` at time 11 with lifetime 10, the sweep has
deleted `a` from the map but the chain head is still the deleted `a`
node. -/
def stStale : PotencyState :=
  write 11 srB0 (write 0 srA0 { lifetime := 10, cache := [], chain := [], inProgress := [] })

/-- Sample key header value: the quoted key `a`. -/
def valA : List Char := [quoteChar, Char.ofNat 97, quoteChar]

/-! ### Association list lemmas -/

theorem assocGet_cons {α : Type} (k : String) (kv : String × α) (t : List (String × α)) :
    assocGet k (kv :: t) = if kv.1 = k then some kv.2 else assocGet k t := by
  unfold assocGet
  by_cases h : kv.1 = k
  · rw [List.find?_cons_of_pos _ (by simpa using h), if_pos h]
    rfl
  · rw [List.find?_cons_of_neg _ (by simpa using h), if_neg h]

theorem eraseKey_cons {α : Type} (k : String) (kv : String × α) (t : List (String × α)) :
    eraseKey k (kv :: t) = if kv.1 = k then eraseKey k t else kv :: eraseKey k t := by
  unfold eraseKey
  rw [List.filter_cons]
  by_cases h : kv.1 = k
  · rw [if_neg (by simpa using h), if_pos h]
  · rw [if_pos (by simpa using h), if_neg h]

theorem assocGet_eraseKey_self {α : Type} (k : String) (l : List (String × α)) :
    assocGet k (eraseKey k l) = none := by
  induction l with
  | nil => rfl
  | cons kv t ih =>
    rw [eraseKey_cons]
    by_cases h : kv.1 = k
    · rw [if_pos h]
      exact ih
    · rw [if_neg h, assocGet_cons, if_neg h]
      exact ih

theorem assocGet_eraseKey_ne {α : Type} {k k2 : String} (l : List (String × α))
    (h : k ≠ k2) : assocGet k (eraseKey k2 l) = assocGet k l := by
  induction l with
  | nil => rfl
  | cons kv t ih =>
    rw [eraseKey_cons]
    by_cases h1 : kv.1 = k2
    · have h2 : ¬ kv.1 = k := by
        rw [h1]
        exact fun he => h he.symm
      rw [if_pos h1, assocGet_cons, if_neg h2]
      exact ih
    · rw [if_neg h1, assocGet_cons, assocGet_cons, ih]

theorem assocGet_assocSet_self {α : Type} (k : String) (v : α) (l : List (String × α)) :
    assocGet k (assocSet k v l) = some v := by
  unfold assocSet
  rw [assocGet_cons, if_pos rfl]

theorem assocGet_assocSet_ne {α : Type} {k k2 : String} (v : α) (l : List (String × α))
    (h : k ≠ k2) : assocGet k (assocSet k2 v l) = assocGet k l := by
  have h2 : ¬ k2 = k := fun he => h he.symm
  unfold assocSet
  rw [assocGet_cons, if_neg h2, assocGet_eraseKey_ne l h]

theorem filter_ne_of_not_mem {k : String} {l : List String} (h : k ∉ l) :
    (l.filter fun x => decide (x ≠ k)) = l := by
  induction l with
  | nil => rfl
  | cons a t ih =>
    have ha : a ≠ k := fun he => h (he ▸ List.mem_cons_self a t)
    have ht : k ∉ t := fun hm => h (List.mem_cons_of_mem a hm)
    rw [List.filter_cons, if_pos (by simpa using ha), ih ht]

/-! ### Expiry sweep lemmas -/

theorem removeExpired_of_fresh (cutoff : Int) (chain : List SavedResult)
    (cache : List (String × SavedResult))
    (h : ∀ n ∈ chain, ¬ n.added < cutoff) :
    removeExpired cutoff chain cache = (chain, cache) := by
  cases chain with
  | nil => rfl
  | cons sr rest =>
    simp [removeExpired, h sr (List.mem_cons_self sr rest)]

theorem removeExpiredAux_get (cutoff : Int) (last : SavedResult)
    (chain : List SavedResult) (cache : List (String × SavedResult)) (k : String) :
    assocGet k (removeExpiredAux cutoff last chain cache).2 = assocGet k cache
    ∨ assocGet k (removeExpiredAux cutoff last chain cache).2 = none := by
  induction chain generalizing last cache with
  | nil => exact Or.inl rfl
  | cons sr rest ih =>
    by_cases hx : sr.added < cutoff
    · rw [removeExpiredAux, if_pos hx]
      rcases ih sr (eraseKey sr.key cache) with h1 | h1
      · by_cases hk : k = sr.key
        · subst hk
          rw [h1, assocGet_eraseKey_self]
          exact Or.inr rfl
        · rw [h1, assocGet_eraseKey_ne cache hk]
          exact Or.inl rfl
      · exact Or.inr h1
    · rw [removeExpiredAux, if_neg hx]
      exact Or.inl rfl

theorem removeExpired_get (cutoff : Int) (chain : List SavedResult)
    (cache : List (String × SavedResult)) (k : String) :
    assocGet k (removeExpired cutoff chain cache).2 = assocGet k cache
    ∨ assocGet k (removeExpired cutoff chain cache).2 = none := by
  cases chain with
  | nil => exact Or.inl rfl
  | cons sr rest =>
    by_cases hx : sr.added < cutoff
    · rw [removeExpired, if_pos hx]
      rcases removeExpiredAux_get cutoff sr rest (eraseKey sr.key cache) k with h1 | h1
      · by_cases hk : k = sr.key
        · subst hk
          rw [h1, assocGet_eraseKey_self]
          exact Or.inr rfl
        · rw [h1, assocGet_eraseKey_ne cache hk]
          exact Or.inl rfl
      · exact Or.inr h1
    · rw [removeExpired, if_neg hx]
      exact Or.inl rfl

/-! ### Response writer intercept lemmas -/

theorem getLast?_getD_cons {α : Type} (l : List α) :
    ∀ a d : α, ((a :: l).getLast?).getD d = (l.getLast?).getD a := by
  induction l with
  | nil => intro a d; rfl
  | cons b t ih =>
    intro a d
    rw [List.getLast?_cons_cons, ih b d, ih b a]

theorem runOps_general (ops : List RWOp) :
    ∀ (rwi : RWIState) (w : ResponseState),
      (ops.foldl applyOp (rwi, w)).1.statusCode
        = ((ops.filterMap statusSetBy).getLast?).getD rwi.statusCode
      ∧ (ops.foldl applyOp (rwi, w)).2.events = w.events ++ ops.filterMap eventOf := by
  induction ops with
  | nil => intro rwi w; simp
  | cons op rest ih =>
    intro rwi w
    cases op with
    | setHeader k v =>
      simpa [applyOp, statusSetBy, eventOf] using
        ih rwi { w with header := headerSet k v w.header }
    | addHeader k v =>
      simpa [applyOp, statusSetBy, eventOf] using
        ih rwi { w with header := headerAdd k v w.header }
    | writeHeader c =>
      have h := ih { rwi with statusCode := c } { w with events := w.events ++ [.status c] }
      constructor
      · rw [List.foldl_cons]
        show (List.foldl applyOp (applyOp (rwi, w) (.writeHeader c)) rest).1.statusCode = _
        rw [show applyOp (rwi, w) (.writeHeader c)
              = ({ rwi with statusCode := c }, { w with events := w.events ++ [.status c] }) from rfl]
        rw [h.1]
        simp [statusSetBy, getLast?_getD_cons]
      · rw [List.foldl_cons]
        show (List.foldl applyOp (applyOp (rwi, w) (.writeHeader c)) rest).2.events = _
        rw [show applyOp (rwi, w) (.writeHeader c)
              = ({ rwi with statusCode := c }, { w with events := w.events ++ [.status c] }) from rfl]
        rw [h.2]
        simp [eventOf]
    | writeData bs =>
      have h := ih { rwi with buf := rwi.buf ++ bs } { w with events := w.events ++ [.data bs] }
      constructor
      · rw [List.foldl_cons]
        show (List.foldl applyOp (applyOp (rwi, w) (.writeData bs)) rest).1.statusCode = _
        rw [show applyOp (rwi, w) (.writeData bs)
              = ({ rwi with buf := rwi.buf ++ bs }, { w with events := w.events ++ [.data bs] }) from rfl]
        rw [h.1]
        simp [statusSetBy]
      · rw [List.foldl_cons]
        show (List.foldl applyOp (applyOp (rwi, w) (.writeData bs)) rest).2.events = _
        rw [show applyOp (rwi, w) (.writeData bs)
              = ({ rwi with buf := rwi.buf ++ bs }, { w with events := w.events ++ [.data bs] }) from rfl]
        rw [h.2]
        simp [eventOf]

/-! ### Body intercept lemmas -/

theorem biReadN_acc : ∀ (k : Nat) (st : BIState),
    (biReadN k st).2.acc = st.acc ++ ((biReadN k st).1.map Prod.fst).flatten := by
  intro k
  induction k with
  | zero => intro st; simp [biReadN]
  | succ n ih =>
    intro st
    cases hp : st.pending with
    | nil =>
      have hb : biRead st = (([], true), st) := by simp [biRead, hp]
      simp only [biReadN, hb]
      simpa using ih st
    | cons res rest =>
      have hb : biRead st = (res, { pending := rest, acc := st.acc ++ res.1 }) := by
        simp [biRead, hp]
      simp only [biReadN, hb]
      rw [ih { pending := rest, acc := st.acc ++ res.1 }]
      simp

theorem biReadN_results : ∀ (k : Nat) (src : List (Bytes × Bool)) (acc : Bytes),
    (biReadN k { pending := src, acc := acc }).1
      = src.take k ++ List.replicate (k - src.length) ([], true) := by
  intro k
  induction k with
  | zero => intro src acc; simp [biReadN]
  | succ n ih =>
    intro src acc
    cases src with
    | nil =>
      simp only [biReadN, biRead]
      rw [ih [] acc]
      simp [List.replicate_succ]
    | cons c rest =>
      simp only [biReadN, biRead]
      rw [ih rest (acc ++ c.1)]
      simp

/-! ### Claim theorems -/

/-- C1: evidence of the expiry sweep defect, evaluated at the failing
input.  With lifetime 10: insert key `a` at time 0, insert key `b` at
time 11 (the sweep removes `a` but leaves the tracked oldest pointer on
the removed node instead of advancing it to the first non-expired entry),
then insert key `a` again at time 12.  The second `a` entry, freshly added
and not expired (12 is not before the cutoff 12 - 10), is missing from the
cache map right after its own insert: the stale oldest node's key deleted
it.  The spec's sweep (advance the oldest pointer to the `next` link, stop
with it on the first non-expired entry, remove only expired entries) would
keep it. -/
theorem removeExpired_bug_evidence :
    (assocGet "a"
        (write 12
          { key := "a", method := "POST", url := "/u", requestHeader := [], sha256 := [],
            statusCode := 200, responseHeader := [], responseBody := [], added := 0 }
          (write 11
            { key := "b", method := "POST", url := "/u", requestHeader := [], sha256 := [],
              statusCode := 200, responseHeader := [], responseBody := [], added := 0 }
            (write 0
              { key := "a", method := "POST", url := "/u", requestHeader := [], sha256 := [],
                statusCode := 200, responseHeader := [], responseBody := [], added := 0 }
              { lifetime := 10, cache := [], chain := [], inProgress := [] }))).cache = none
      ∧ ¬ ((12 : Int) < 12 - 10))
    ∧ ((write 11
          { key := "b", method := "POST", url := "/u", requestHeader := [], sha256 := [],
            statusCode := 200, responseHeader := [], responseBody := [], added := 0 }
          (write 0
            { key := "a", method := "POST", url := "/u", requestHeader := [], sha256 := [],
              statusCode := 200, responseHeader := [], responseBody := [], added := 0 }
            { lifetime := 10, cache := [], chain := [], inProgress := [] })).chain.head?.map
            SavedResult.key = some "a"
      ∧ assocGet "a"
          (write 11
            { key := "b", method := "POST", url := "/u", requestHeader := [], sha256 := [],
              statusCode := 200, responseHeader := [], responseBody := [], added := 0 }
            (write 0
              { key := "a", method := "POST", url := "/u", requestHeader := [], sha256 := [],
                statusCode := 200, responseHeader := [], responseBody := [], added := 0 }
              { lifetime := 10, cache := [], chain := [], inProgress := [] })).cache = none) := by
  decide

/-- C2 counterexample: a Response Tap receiving `WriteHeader 201` then
`WriteHeader 500` records 500, not the first status code 201. -/
theorem rwi_not_first_status :
    (runOps [RWOp.writeHeader 201, RWOp.writeHeader 500]
        { header := [], events := [] }).1.statusCode = 500
    ∧ ¬ (runOps [RWOp.writeHeader 201, RWOp.writeHeader 500]
        { header := [], events := [] }).1.statusCode = 201 := by
  decide

/-- C2 amended: for every sequence of operations on a Response Tap, the
recorded status code is the last status code set via `WriteHeader` (the
default 200 when `WriteHeader` is never called), and every `WriteHeader`
and `Write` call is forwarded to the destination writer in order. -/
theorem rwi_records_last_status (ops : List RWOp) (w : ResponseState) :
    (runOps ops w).1.statusCode = ((ops.filterMap statusSetBy).getLast?).getD 200
    ∧ (runOps ops w).2.events = w.events ++ ops.filterMap eventOf :=
  runOps_general ops newRWI w

/-- C9: for every source read sequence and number of reads through the
Request Body Tap, the digest input is exactly the concatenation of the
byte ranges the reads returned (so the digest is the hash of exactly those
bytes, for every hash function), and each read passes the source's data
and error through unchanged (reads past the source return no bytes and
the end-of-stream error). -/
theorem bodyIntercept_digest_exact (src : List (Bytes × Bool)) (k : Nat)
    (sha : Bytes → Bytes) :
    sha (biReadN k { pending := src, acc := [] }).2.acc
      = sha (((biReadN k { pending := src, acc := [] }).1.map Prod.fst).flatten)
    ∧ (biReadN k { pending := src, acc := [] }).1
      = src.take k ++ List.replicate (k - src.length) ([], true) := by
  refine ⟨?_, biReadN_results k src []⟩
  rw [biReadN_acc]
  simp

/-! ### Dispatcher lemmas -/

theorem validGuard {val : List Char} (hlen : 2 ≤ val.length)
    (hh : val.head? = some quoteChar) (hl : val.getLast? = some quoteChar) :
    ¬ (val.length < 2 ∨ ¬ val.head? = some quoteChar ∨ ¬ val.getLast? = some quoteChar) := by
  push_neg
  exact ⟨hlen, hh, hl⟩

theorem serveHTTPval_error_of_valid (sha : Bytes → Bytes)
    (handler : Request → HandlerResult) (now : Int) (st : PotencyState)
    (w : ResponseState) (r : Request) (val : List Char)
    (hg : ¬ (val.length < 2 ∨ ¬ val.head? = some quoteChar ∨ ¬ val.getLast? = some quoteChar)) :
    ¬ (serveHTTPval sha handler now st w r val).error = some DispatchError.invalidKey := by
  simp only [serveHTTPval, if_neg hg]
  repeat' split
  all_goals simp

/-- C4: with a non-empty Idempotency-Key value, the dispatcher fails with
InvalidKey and performs no side effects (state, writer and handler-call
count untouched) exactly when the value is not a double-quote-delimited
token of raw length at least 2; and the two-character value of just two
quotes strips to the empty bare key. -/
theorem invalidKey_iff_syntax (sha : Bytes → Bytes) (handler : Request → HandlerResult)
    (now : Int) (st : PotencyState) (w : ResponseState) (r : Request)
    (val : List Char) (_hval : val ≠ []) :
    (((serveHTTPval sha handler now st w r val).error = some DispatchError.invalidKey
        ∧ (serveHTTPval sha handler now st w r val).st = st
        ∧ (serveHTTPval sha handler now st w r val).w = w
        ∧ (serveHTTPval sha handler now st w r val).handlerCalls = 0)
      ↔ ¬ (2 ≤ val.length ∧ val.head? = some quoteChar ∧ val.getLast? = some quoteChar))
    ∧ keyOf [quoteChar, quoteChar] = "" := by
  constructor
  · by_cases hg : val.length < 2 ∨ ¬ val.head? = some quoteChar ∨ ¬ val.getLast? = some quoteChar
    · have he : serveHTTPval sha handler now st w r val
          = { error := some .invalidKey, st := st, w := w, handlerCalls := 0 } := by
        rw [serveHTTPval, if_pos hg]
      rw [he]
      constructor
      · intro _ hc
        rcases hg with h | h | h
        · omega
        · exact h hc.2.1
        · exact h hc.2.2
      · intro _
        exact ⟨rfl, rfl, rfl, rfl⟩
    · have hne := serveHTTPval_error_of_valid sha handler now st w r val hg
      push_neg at hg
      constructor
      · intro hc
        exact absurd hc.1 hne
      · intro hc
        exact absurd ⟨hg.1, hg.2.1, hg.2.2⟩ hc
  · rfl

/-- C4 witness: a single non-quote character is a non-empty value, and the
theorem instantiates at it. -/
theorem invalidKey_iff_syntax_witness :
    ([Char.ofNat 120] : List Char) ≠ []
    ∧ ((((serveHTTPval (fun bs => bs) (fun _ => { numReads := 0, ops := [] }) 0
            { lifetime := 10, cache := [], chain := [], inProgress := [] }
            { header := [], events := [] }
            { method := "GET", url := "/u", header := [], body := [], bodyErr := false }
            [Char.ofNat 120]).error = some DispatchError.invalidKey
          ∧ (serveHTTPval (fun bs => bs) (fun _ => { numReads := 0, ops := [] }) 0
            { lifetime := 10, cache := [], chain := [], inProgress := [] }
            { header := [], events := [] }
            { method := "GET", url := "/u", header := [], body := [], bodyErr := false }
            [Char.ofNat 120]).st = { lifetime := 10, cache := [], chain := [], inProgress := [] }
          ∧ (serveHTTPval (fun bs => bs) (fun _ => { numReads := 0, ops := [] }) 0
            { lifetime := 10, cache := [], chain := [], inProgress := [] }
            { header := [], events := [] }
            { method := "GET", url := "/u", header := [], body := [], bodyErr := false }
            [Char.ofNat 120]).w = { header := [], events := [] }
          ∧ (serveHTTPval (fun bs => bs) (fun _ => { numReads := 0, ops := [] }) 0
            { lifetime := 10, cache := [], chain := [], inProgress := [] }
            { header := [], events := [] }
            { method := "GET", url := "/u", header := [], body := [], bodyErr := false }
            [Char.ofNat 120]).handlerCalls = 0)
        ↔ ¬ (2 ≤ ([Char.ofNat 120] : List Char).length
              ∧ ([Char.ofNat 120] : List Char).head? = some quoteChar
              ∧ ([Char.ofNat 120] : List Char).getLast? = some quoteChar))
      ∧ keyOf [quoteChar, quoteChar] = "") :=
  ⟨by decide,
    invalidKey_iff_syntax (fun bs => bs) (fun _ => { numReads := 0, ops := [] }) 0
      { lifetime := 10, cache := [], chain := [], inProgress := [] }
      { header := [], events := [] }
      { method := "GET", url := "/u", header := [], body := [], bodyErr := false }
      [Char.ofNat 120] (by decide)⟩

/-! ### Header replay lemmas -/

theorem replaySavedHeader_cons (kv : String × List String) (rest : Header)
    (w : ResponseState) :
    replaySavedHeader (kv :: rest) w
      = replaySavedHeader rest { w with header := headerSet kv.1 (kv.2.headD "") w.header } :=
  rfl

theorem replaySavedHeader_events (l : Header) :
    ∀ w : ResponseState, (replaySavedHeader l w).events = w.events := by
  induction l with
  | nil => intro w; rfl
  | cons kv rest ih =>
    intro w
    rw [replaySavedHeader_cons]
    exact ih _

theorem headerValues_headerSet_self (k v : String) (h : Header) :
    headerValues k (headerSet k v h) = [v] := by
  unfold headerValues headerSet
  rw [assocGet_assocSet_self]
  rfl

theorem headerValues_headerSet_ne {k k2 : String} (v : String) (h : Header)
    (hne : k ≠ k2) : headerValues k (headerSet k2 v h) = headerValues k h := by
  unfold headerValues headerSet
  rw [assocGet_assocSet_ne _ _ hne]

theorem replaySavedHeader_values_of_not_mem (l : Header) (k : String) :
    ∀ w : ResponseState, k ∉ l.map Prod.fst →
      headerValues k (replaySavedHeader l w).header = headerValues k w.header := by
  induction l with
  | nil => intro w _; rfl
  | cons kv rest ih =>
    intro w hnm
    rw [List.map_cons] at hnm
    have hk : k ≠ kv.1 := fun he => hnm (he ▸ List.mem_cons_self kv.1 (rest.map Prod.fst))
    have ht : k ∉ rest.map Prod.fst := fun hm => hnm (List.mem_cons_of_mem _ hm)
    rw [replaySavedHeader_cons, ih _ ht]
    exact headerValues_headerSet_ne _ _ hk

theorem replaySavedHeader_values (k : String) (vs : List String) :
    ∀ (l : Header) (w : ResponseState), (l.map Prod.fst).Nodup → (k, vs) ∈ l →
      headerValues k (replaySavedHeader l w).header = [vs.headD ""] := by
  intro l
  induction l with
  | nil => intro w _ hmem; cases hmem
  | cons kv rest ih =>
    intro w hnodup hmem
    rw [List.map_cons] at hnodup
    rw [replaySavedHeader_cons]
    rcases List.mem_cons.mp hmem with he | ht
    · have hk1 : kv.1 = k := by rw [← he]
      have hv : kv.2 = vs := by rw [← he]
      have hnm : k ∉ rest.map Prod.fst := by
        have h1 := (List.nodup_cons.mp hnodup).1
        rwa [hk1] at h1
      rw [replaySavedHeader_values_of_not_mem rest k _ hnm, hk1, hv]
      exact headerValues_headerSet_self _ _ _
    · exact ih _ (List.nodup_cons.mp hnodup).2 ht

/-! ### Hit path claims -/

/-- C3 counterexample: a stored response header with two values
`["1", "2"]` is replayed with only its first value: after a fully matching
replay, the caller sees value list `["1"]`, not the stored list verbatim;
the replay itself succeeds (no error). -/
theorem replay_drops_extra_header_values :
    headerValues "X-Multi"
        ((serveHTTPval (fun _ => []) (fun _ => { numReads := 0, ops := [] }) 0
            { lifetime := 10,
              cache := [("k",
                { key := "k", method := "GET", url := "/u", requestHeader := [], sha256 := [],
                  statusCode := 200, responseHeader := [("X-Multi", ["1", "2"])],
                  responseBody := [], added := 0 })],
              chain := [], inProgress := [] }
            { header := [], events := [] }
            { method := "GET", url := "/u", header := [], body := [], bodyErr := false }
            [quoteChar, Char.ofNat 107, quoteChar]).w.header) = ["1"]
    ∧ ¬ headerValues "X-Multi"
        ((serveHTTPval (fun _ => []) (fun _ => { numReads := 0, ops := [] }) 0
            { lifetime := 10,
              cache := [("k",
                { key := "k", method := "GET", url := "/u", requestHeader := [], sha256 := [],
                  statusCode := 200, responseHeader := [("X-Multi", ["1", "2"])],
                  responseBody := [], added := 0 })],
              chain := [], inProgress := [] }
            { header := [], events := [] }
            { method := "GET", url := "/u", header := [], body := [], bodyErr := false }
            [quoteChar, Char.ofNat 107, quoteChar]).w.header) = ["1", "2"]
    ∧ (serveHTTPval (fun _ => []) (fun _ => { numReads := 0, ops := [] }) 0
            { lifetime := 10,
              cache := [("k",
                { key := "k", method := "GET", url := "/u", requestHeader := [], sha256 := [],
                  statusCode := 200, responseHeader := [("X-Multi", ["1", "2"])],
                  responseBody := [], added := 0 })],
              chain := [], inProgress := [] }
            { header := [], events := [] }
            { method := "GET", url := "/u", header := [], body := [], bodyErr := false }
            [quoteChar, Char.ofNat 107, quoteChar]).error = none := by
  decide

/-- C3 amended: on a fully matching cache hit the dispatcher returns no
error, never invokes the wrapped handler, leaves the whole state (cache
and in-flight set) unchanged, forwards exactly the stored status code then
the stored body to the caller, and sets each stored response header to its
first stored value (not the whole stored value list). -/
theorem hit_replay_stored (sha : Bytes → Bytes) (handler : Request → HandlerResult)
    (now : Int) (st : PotencyState) (w : ResponseState) (r : Request)
    (val : List Char) (saved : SavedResult) (k : String) (vs : List String)
    (hlen : 2 ≤ val.length) (hh : val.head? = some quoteChar)
    (hl : val.getLast? = some quoteChar)
    (hs : assocGet (keyOf val) st.cache = some saved)
    (hm : r.method = saved.method) (hu : r.url = saved.url)
    (hhdr : findHeaderMismatch saved.requestHeader r.header criticalHeaders = none)
    (hbe : r.bodyErr = false) (hsha : sha r.body.flatten = saved.sha256)
    (hnodup : (saved.responseHeader.map Prod.fst).Nodup)
    (hkv : (k, vs) ∈ saved.responseHeader) :
    (serveHTTPval sha handler now st w r val).error = none
    ∧ (serveHTTPval sha handler now st w r val).handlerCalls = 0
    ∧ (serveHTTPval sha handler now st w r val).st = st
    ∧ (serveHTTPval sha handler now st w r val).w.events
        = w.events ++ [WEvent.status saved.statusCode, WEvent.data saved.responseBody]
    ∧ headerValues k (serveHTTPval sha handler now st w r val).w.header = [vs.headD ""] := by
  have hg := validGuard hlen hh hl
  have hres : serveHTTPval sha handler now st w r val
      = { error := none, st := st,
          w := { replaySavedHeader saved.responseHeader w with
                 events := (replaySavedHeader saved.responseHeader w).events
                   ++ [WEvent.status saved.statusCode, WEvent.data saved.responseBody] },
          handlerCalls := 0 } := by
    simp only [serveHTTPval, hs]
    rw [if_neg hg, if_neg (not_not_intro hm), if_neg (not_not_intro hu)]
    simp only [hhdr]
    rw [if_neg (by simp [hbe]), if_neg (not_not_intro hsha)]
  rw [hres]
  refine ⟨rfl, rfl, rfl, ?_, ?_⟩
  · rw [replaySavedHeader_events]
  · exact replaySavedHeader_values k vs saved.responseHeader w hnodup hkv

/-- C5: on a cache hit, the checks run in the order method, URL, Accept,
Authorization, body digest; the first failing check aborts with the
corresponding mismatch error, leaving the state and the response writer
untouched and never invoking the wrapped handler. -/
theorem hit_mismatch_first_check (sha : Bytes → Bytes) (handler : Request → HandlerResult)
    (now : Int) (st : PotencyState) (w : ResponseState) (r : Request)
    (val : List Char) (saved : SavedResult)
    (hlen : 2 ≤ val.length) (hh : val.head? = some quoteChar)
    (hl : val.getLast? = some quoteChar)
    (hs : assocGet (keyOf val) st.cache = some saved) :
    (¬ r.method = saved.method →
        serveHTTPval sha handler now st w r val
          = { error := some .methodMismatch, st := st, w := w, handlerCalls := 0 })
    ∧ (r.method = saved.method → ¬ r.url = saved.url →
        serveHTTPval sha handler now st w r val
          = { error := some .urlMismatch, st := st, w := w, handlerCalls := 0 })
    ∧ (r.method = saved.method → r.url = saved.url →
        ¬ headerGet "Accept" saved.requestHeader = headerGet "Accept" r.header →
        serveHTTPval sha handler now st w r val
          = { error := some (.headerMismatch "Accept"), st := st, w := w, handlerCalls := 0 })
    ∧ (r.method = saved.method → r.url = saved.url →
        headerGet "Accept" saved.requestHeader = headerGet "Accept" r.header →
        ¬ headerGet "Authorization" saved.requestHeader = headerGet "Authorization" r.header →
        serveHTTPval sha handler now st w r val
          = { error := some (.headerMismatch "Authorization"), st := st, w := w,
              handlerCalls := 0 })
    ∧ (r.method = saved.method → r.url = saved.url →
        headerGet "Accept" saved.requestHeader = headerGet "Accept" r.header →
        headerGet "Authorization" saved.requestHeader = headerGet "Authorization" r.header →
        r.bodyErr = false → ¬ sha r.body.flatten = saved.sha256 →
        serveHTTPval sha handler now st w r val
          = { error := some .bodyMismatch, st := st, w := w, handlerCalls := 0 }) := by
  have hg := validGuard hlen hh hl
  refine ⟨?_, ?_, ?_, ?_, ?_⟩
  · intro hm
    simp only [serveHTTPval, hs]
    rw [if_neg hg, if_pos hm]
  · intro hm hu
    simp only [serveHTTPval, hs]
    rw [if_neg hg, if_neg (not_not_intro hm), if_pos hu]
  · intro hm hu hA
    have hf : findHeaderMismatch saved.requestHeader r.header criticalHeaders
        = some "Accept" := by
      simp only [criticalHeaders, findHeaderMismatch]
      rw [if_neg hA]
    simp only [serveHTTPval, hs, hf]
    rw [if_neg hg, if_neg (not_not_intro hm), if_neg (not_not_intro hu)]
  · intro hm hu hA hAuth
    have hf : findHeaderMismatch saved.requestHeader r.header criticalHeaders
        = some "Authorization" := by
      simp only [criticalHeaders, findHeaderMismatch]
      rw [if_pos hA, if_neg hAuth]
    simp only [serveHTTPval, hs, hf]
    rw [if_neg hg, if_neg (not_not_intro hm), if_neg (not_not_intro hu)]
  · intro hm hu hA hAuth hbe hsha
    have hf : findHeaderMismatch saved.requestHeader r.header criticalHeaders = none := by
      simp only [criticalHeaders, findHeaderMismatch]
      rw [if_pos hA, if_pos hAuth]
    simp only [serveHTTPval, hs, hf]
    rw [if_neg hg, if_neg (not_not_intro hm), if_neg (not_not_intro hu),
      if_neg (by simp [hbe]), if_pos hsha]

/-! ### Miss path claims -/

/-- C6: on a cache miss, a key already in the in-flight set is rejected
with Conflict immediately, with no handler invocation and no state
change; otherwise the handler runs exactly once and the in-flight set
afterwards equals the initial one, the key having been removed
unconditionally at the end. -/
theorem miss_conflict_or_clean (sha : Bytes → Bytes) (handler : Request → HandlerResult)
    (now : Int) (st : PotencyState) (w : ResponseState) (r : Request)
    (val : List Char)
    (hlen : 2 ≤ val.length) (hh : val.head? = some quoteChar)
    (hl : val.getLast? = some quoteChar)
    (hmiss : assocGet (keyOf val) st.cache = none) :
    (keyOf val ∈ st.inProgress →
        serveHTTPval sha handler now st w r val
          = { error := some .conflict, st := st, w := w, handlerCalls := 0 })
    ∧ (keyOf val ∉ st.inProgress →
        (serveHTTPval sha handler now st w r val).error = none
        ∧ (serveHTTPval sha handler now st w r val).handlerCalls = 1
        ∧ (serveHTTPval sha handler now st w r val).st.inProgress = st.inProgress
        ∧ keyOf val ∉ (serveHTTPval sha handler now st w r val).st.inProgress) := by
  have hg := validGuard hlen hh hl
  constructor
  · intro hk
    simp only [serveHTTPval, hmiss]
    rw [if_neg hg, if_pos hk]
  · intro hk
    have hres : (serveHTTPval sha handler now st w r val).st.inProgress
        = (keyOf val :: st.inProgress).filter fun x => decide (x ≠ keyOf val) := by
      simp only [serveHTTPval, hmiss]
      rw [if_neg hg, if_neg hk]
      rfl
    have hfil : ((keyOf val :: st.inProgress).filter fun x => decide (x ≠ keyOf val))
        = st.inProgress := by
      rw [List.filter_cons, if_neg (by simp), filter_ne_of_not_mem hk]
    refine ⟨?_, ?_, ?_, ?_⟩
    · simp only [serveHTTPval, hmiss]
      rw [if_neg hg, if_neg hk]
    · simp only [serveHTTPval, hmiss]
      rw [if_neg hg, if_neg hk]
    · rw [hres, hfil]
    · rw [hres, hfil]
      exact hk

/-- Supporting lemma for the execute path: on a cache miss with the
in-flight slot free, the dispatcher returns no error and runs the wrapped
handler exactly once; in the benign states where no chain entry is expired
(and the lifetime is non-negative, so the fresh entry is itself
unexpired), the post-insert sweep removes nothing and the cache afterwards
holds, under the bare key, exactly the SavedResult assembled from the
request's method and URL, the captured critical headers, the digest of the
bytes the handler consumed, and the intercepted status code, response
headers and body copy, stamped with the insertion time.  Outside these
states the insertion does not persist: see the evidence theorem for the
execute path below. -/
theorem execute_saves_result (sha : Bytes → Bytes) (handler : Request → HandlerResult)
    (now : Int) (st : PotencyState) (w : ResponseState) (r : Request)
    (val : List Char)
    (hlen : 2 ≤ val.length) (hh : val.head? = some quoteChar)
    (hl : val.getLast? = some quoteChar)
    (hmiss : assocGet (keyOf val) st.cache = none)
    (hfree : keyOf val ∉ st.inProgress)
    (hlife : 0 ≤ st.lifetime)
    (hfresh : ∀ n ∈ st.chain, ¬ n.added < now - st.lifetime) :
    (serveHTTPval sha handler now st w r val).error = none
    ∧ (serveHTTPval sha handler now st w r val).handlerCalls = 1
    ∧ assocGet (keyOf val) (serveHTTPval sha handler now st w r val).st.cache
        = some { key := keyOf val, method := r.method, url := r.url,
                 requestHeader := headerSet "Authorization" (headerGet "Authorization" r.header)
                     (headerSet "Accept" (headerGet "Accept" r.header) []),
                 sha256 := sha ((r.body.take (handler r).numReads).flatten),
                 statusCode := (runOps (handler r).ops w).1.statusCode,
                 responseHeader := (runOps (handler r).ops w).2.header,
                 responseBody := (runOps (handler r).ops w).1.buf,
                 added := now } := by
  have hg := validGuard hlen hh hl
  refine ⟨?_, ?_, ?_⟩
  · simp only [serveHTTPval, hmiss]
    rw [if_neg hg, if_neg hfree]
  · simp only [serveHTTPval, hmiss]
    rw [if_neg hg, if_neg hfree]
  · have hres : (serveHTTPval sha handler now st w r val).st.cache
        = (write now
            { key := keyOf val, method := r.method, url := r.url,
              requestHeader :=
                criticalHeaders.foldl (fun acc h => headerSet h (headerGet h r.header) acc) [],
              sha256 := sha ((r.body.take (handler r).numReads).flatten),
              statusCode := (runOps (handler r).ops w).1.statusCode,
              responseHeader := (runOps (handler r).ops w).2.header,
              responseBody := (runOps (handler r).ops w).1.buf,
              added := 0 }
            { st with inProgress := keyOf val :: st.inProgress }).cache := by
      simp only [serveHTTPval, hmiss]
      rw [if_neg hg, if_neg hfree]
    rw [hres]
    simp only [write]
    rw [removeExpired_of_fresh]
    · rw [assocGet_assocSet_self]
      rfl
    · intro n hn
      rcases List.mem_append.mp hn with hmem | hmem
      · exact hfresh n hmem
      · rw [List.mem_singleton.mp hmem]
        simp only
        omega

/-! ### Cache stability and empty-key claims -/

/-- C8: a cache entry is never overwritten or mutated by any dispatcher
operation: whatever request is served, an entry present under a key
beforehand is either still present unchanged afterwards or has been
removed (by the expiry sweep triggered by an insert); in particular the
hit path and every error path leave it untouched, and an insert only ever
happens under a key that was absent. -/
theorem cache_entry_never_overwritten (sha : Bytes → Bytes)
    (handler : Request → HandlerResult) (now : Int) (st : PotencyState)
    (w : ResponseState) (r : Request) (val : List Char) (k : String) (e : SavedResult)
    (he : assocGet k st.cache = some e) :
    assocGet k (serveHTTPval sha handler now st w r val).st.cache = some e
    ∨ assocGet k (serveHTTPval sha handler now st w r val).st.cache = none := by
  by_cases hg : val.length < 2 ∨ ¬ val.head? = some quoteChar ∨ ¬ val.getLast? = some quoteChar
  · rw [serveHTTPval, if_pos hg]
    exact Or.inl he
  · cases hc : assocGet (keyOf val) st.cache with
    | some saved =>
      have hst : (serveHTTPval sha handler now st w r val).st = st := by
        simp only [serveHTTPval, hc]
        rw [if_neg hg]
        repeat' split
        all_goals rfl
      rw [hst]
      exact Or.inl he
    | none =>
      by_cases hk : keyOf val ∈ st.inProgress
      · have hst : (serveHTTPval sha handler now st w r val).st = st := by
          simp only [serveHTTPval, hc]
          rw [if_neg hg, if_pos hk]
        rw [hst]
        exact Or.inl he
      · have hne : k ≠ keyOf val := by
          intro hkk
          rw [hkk, hc] at he
          cases he
        have hres : (serveHTTPval sha handler now st w r val).st.cache
            = (removeExpired (now - st.lifetime)
                (st.chain ++
                  [{ key := keyOf val, method := r.method, url := r.url,
                     requestHeader :=
                       criticalHeaders.foldl
                         (fun acc h => headerSet h (headerGet h r.header) acc) [],
                     sha256 := sha ((r.body.take (handler r).numReads).flatten),
                     statusCode := (runOps (handler r).ops w).1.statusCode,
                     responseHeader := (runOps (handler r).ops w).2.header,
                     responseBody := (runOps (handler r).ops w).1.buf,
                     added := now }])
                (assocSet (keyOf val)
                  { key := keyOf val, method := r.method, url := r.url,
                    requestHeader :=
                      criticalHeaders.foldl
                        (fun acc h => headerSet h (headerGet h r.header) acc) [],
                    sha256 := sha ((r.body.take (handler r).numReads).flatten),
                    statusCode := (runOps (handler r).ops w).1.statusCode,
                    responseHeader := (runOps (handler r).ops w).2.header,
                    responseBody := (runOps (handler r).ops w).1.buf,
                    added := now }
                  st.cache)).2 := by
          simp only [serveHTTPval, hc]
          rw [if_neg hg, if_neg hk]
          rfl
        rw [hres]
        rcases removeExpired_get (now - st.lifetime) _ _ k with h1 | h1
        · rw [h1, assocGet_assocSet_ne _ _ hne, he]
          exact Or.inl rfl
        · rw [h1]
          exact Or.inr rfl

/-- C10: a request whose Idempotency-Key header value reads as the empty
string (the header being absent or explicitly empty) is forwarded to the
wrapped handler unmodified and directly: the dispatcher returns no error
(in particular never InvalidKey), runs the handler exactly once on the
unmodified request, leaves the state untouched, and the response is the
handler's writes applied directly to the real writer. -/
theorem empty_key_forwards (sha : Bytes → Bytes) (handler : Request → HandlerResult)
    (now : Int) (st : PotencyState) (w : ResponseState) (r : Request)
    (h : headerGet "Idempotency-Key" r.header = "") :
    goServeHTTP sha handler now st w r
      = { error := none, st := st, w := runOpsPlain (handler r).ops w, handlerCalls := 1 } := by
  simp [goServeHTTP, h]

/-! ### Witnesses -/

/-- C3 witness: a fully matching replay of `savedW` at its concrete
inputs. -/
theorem hit_replay_stored_witness :
    (2 ≤ val0.length ∧ val0.head? = some quoteChar ∧ val0.getLast? = some quoteChar
      ∧ assocGet (keyOf val0) stHit.cache = some savedW
      ∧ r0.method = savedW.method ∧ r0.url = savedW.url
      ∧ findHeaderMismatch savedW.requestHeader r0.header criticalHeaders = none
      ∧ r0.bodyErr = false ∧ sha0 r0.body.flatten = savedW.sha256
      ∧ (savedW.responseHeader.map Prod.fst).Nodup
      ∧ ("X", ["v"]) ∈ savedW.responseHeader)
    ∧ ((serveHTTPval sha0 handler0 0 stHit w0 r0 val0).error = none
      ∧ (serveHTTPval sha0 handler0 0 stHit w0 r0 val0).handlerCalls = 0
      ∧ (serveHTTPval sha0 handler0 0 stHit w0 r0 val0).st = stHit
      ∧ (serveHTTPval sha0 handler0 0 stHit w0 r0 val0).w.events
          = w0.events ++ [WEvent.status savedW.statusCode, WEvent.data savedW.responseBody]
      ∧ headerValues "X" (serveHTTPval sha0 handler0 0 stHit w0 r0 val0).w.header
          = [(["v"] : List String).headD ""]) :=
  ⟨⟨by decide, by decide, by decide, by decide, by decide, by decide, by decide, by decide,
      by decide, by decide, by decide⟩,
    hit_replay_stored sha0 handler0 0 stHit w0 r0 val0 savedW "X" ["v"] (by decide) (by decide)
      (by decide) (by decide) (by decide) (by decide) (by decide) (by decide) (by decide)
      (by decide) (by decide)⟩

/-- C5 witness: a method-mismatching replay aborts with MethodMismatch at
a concrete input, leaving everything untouched. -/
theorem hit_mismatch_first_check_witness :
    (2 ≤ val0.length ∧ val0.head? = some quoteChar ∧ val0.getLast? = some quoteChar
      ∧ assocGet (keyOf val0) stHit.cache = some savedW
      ∧ ¬ rP.method = savedW.method)
    ∧ serveHTTPval sha0 handler0 0 stHit w0 rP val0
        = { error := some .methodMismatch, st := stHit, w := w0, handlerCalls := 0 } :=
  ⟨⟨by decide, by decide, by decide, by decide, by decide⟩,
    (hit_mismatch_first_check sha0 handler0 0 stHit w0 rP val0 savedW (by decide) (by decide)
      (by decide) (by decide)).1 (by decide)⟩

/-- C6 witness: a miss with a free in-flight slot at a concrete input
executes once and leaves the in-flight set as it started. -/
theorem miss_conflict_or_clean_witness :
    (2 ≤ val0.length ∧ val0.head? = some quoteChar ∧ val0.getLast? = some quoteChar
      ∧ assocGet (keyOf val0) stMiss.cache = none
      ∧ keyOf val0 ∉ stMiss.inProgress)
    ∧ ((serveHTTPval sha0 handler0 0 stMiss w0 r0 val0).error = none
      ∧ (serveHTTPval sha0 handler0 0 stMiss w0 r0 val0).handlerCalls = 1
      ∧ (serveHTTPval sha0 handler0 0 stMiss w0 r0 val0).st.inProgress = stMiss.inProgress
      ∧ keyOf val0 ∉ (serveHTTPval sha0 handler0 0 stMiss w0 r0 val0).st.inProgress) :=
  ⟨⟨by decide, by decide, by decide, by decide, by decide⟩,
    (miss_conflict_or_clean sha0 handler0 0 stMiss w0 r0 val0 (by decide) (by decide)
      (by decide) (by decide)).2 (by decide)⟩

/-- Concrete instance of the execute-path lemma: executing at a fresh miss
input stores the assembled SavedResult under the bare key. -/
theorem execute_saves_result_witness :
    (2 ≤ val0.length ∧ val0.head? = some quoteChar ∧ val0.getLast? = some quoteChar
      ∧ assocGet (keyOf val0) stMiss.cache = none
      ∧ keyOf val0 ∉ stMiss.inProgress
      ∧ (0 : Int) ≤ stMiss.lifetime
      ∧ ∀ n ∈ stMiss.chain, ¬ n.added < 0 - stMiss.lifetime)
    ∧ ((serveHTTPval sha0 handler0 0 stMiss w0 r0 val0).error = none
      ∧ (serveHTTPval sha0 handler0 0 stMiss w0 r0 val0).handlerCalls = 1
      ∧ assocGet (keyOf val0) (serveHTTPval sha0 handler0 0 stMiss w0 r0 val0).st.cache
          = some { key := keyOf val0, method := r0.method, url := r0.url,
                   requestHeader := headerSet "Authorization"
                       (headerGet "Authorization" r0.header)
                       (headerSet "Accept" (headerGet "Accept" r0.header) []),
                   sha256 := sha0 ((r0.body.take (handler0 r0).numReads).flatten),
                   statusCode := (runOps (handler0 r0).ops w0).1.statusCode,
                   responseHeader := (runOps (handler0 r0).ops w0).2.header,
                   responseBody := (runOps (handler0 r0).ops w0).1.buf,
                   added := 0 }) :=
  ⟨⟨by decide, by decide, by decide, by decide, by decide, by decide, by decide⟩,
    execute_saves_result sha0 handler0 0 stMiss w0 r0 val0 (by decide) (by decide) (by decide)
      (by decide) (by decide) (by decide) (by decide)⟩

/-- C7: evidence of the execute-path defect, evaluated at the failing
input.  `stStale` is reached by inserting key `a` at time 0 and key `b` at
time 11 with lifetime 10: the sweep has removed `a` from the map but left
the tracked oldest pointer on the deleted `a` node.  A request at time 12
bearing the valid key `a` then misses the cache, finds the in-flight slot
free, and execution concludes with no error and exactly one handler
invocation — yet key `a` is absent from the cache afterwards: the
SavedResult assembled from the handler's response was inserted and then
immediately deleted by the insertion-triggered sweep, because the stale
oldest node carries the same key.  The wrapped handler's response did not
become the cached result, contradicting the claim (whose statement matches
the spec's intent); the cause is the same `cacheOldest = iter` slip
exhibited for C1. -/
theorem execute_result_dropped_evidence :
    (2 ≤ valA.length ∧ valA.head? = some quoteChar ∧ valA.getLast? = some quoteChar)
    ∧ assocGet (keyOf valA) stStale.cache = none
    ∧ keyOf valA ∉ stStale.inProgress
    ∧ (serveHTTPval sha0 handler0 12 stStale w0 r0 valA).error = none
    ∧ (serveHTTPval sha0 handler0 12 stStale w0 r0 valA).handlerCalls = 1
    ∧ ¬ (12 : Int) < 12 - stStale.lifetime
    ∧ assocGet (keyOf valA) (serveHTTPval sha0 handler0 12 stStale w0 r0 valA).st.cache
        = none := by
  decide

/-- C8 witness: an entry present before a concrete dispatcher call is
still present unchanged or gone afterwards. -/
theorem cache_entry_never_overwritten_witness :
    assocGet "k" stHit.cache = some savedW
    ∧ (assocGet "k" (serveHTTPval sha0 handler0 0 stHit w0 r0 val0).st.cache = some savedW
      ∨ assocGet "k" (serveHTTPval sha0 handler0 0 stHit w0 r0 val0).st.cache = none) :=
  ⟨by decide,
    cache_entry_never_overwritten sha0 handler0 0 stHit w0 r0 val0 "k" savedW (by decide)⟩

/-- C10 witness: a request with an explicitly empty Idempotency-Key header
value is forwarded directly at a concrete input. -/
theorem empty_key_forwards_witness :
    headerGet "Idempotency-Key" rE.header = ""
    ∧ goServeHTTP sha0 handler0 0 stMiss w0 rE
        = { error := none, st := stMiss, w := runOpsPlain (handler0 rE).ops w0,
            handlerCalls := 1 } :=
  ⟨by decide, empty_key_forwards sha0 handler0 0 stMiss w0 rE (by decide)⟩

end Potency
